import Mathlib

/-!
Shallow embedding of the scanning pipeline of `src/dns_scraper.py`:
the retry/validation policy around resolution (`RRTypeParser.fetch`,
`validationToDbEnum`), the RFC 2537/3110 RSA public-key decomposition
performed by `DNSKEYParser.fetchAndStore`, the per-record storage loops of
`AParser.fetchAndStore` and `DNSKEYParser.fetchAndStore`, and the RRSIG
metadata extraction of `DnsMetadata.rrsigs` / `DnsMetadata.rrsigsStore`.

Machine integers are modelled as `Nat`/`Int`; byte strings as `List Nat`
(each element a byte value).  Fallible Python code (operations that raise
`IndexError`/`ValueError`, caught by the surrounding `try`/`except`)
is modelled with `Option`.
-/

/-- `RCODE_SERVFAIL` constant imported from the unbound bindings (value 2). -/
def RCODE_SERVFAIL : Nat := 2

/-- `RR_TYPE_RRSIG` constant imported from the unbound bindings (value 46). -/
def RR_TYPE_RRSIG : Nat := 46

/-- The fields of an unbound `ub_result` that the scraper reads:
`secure`, `bogus`, `havedata` and `rcode` (source lines 85-94, 226, 259, 334). -/
structure UbResult where
  secure : Bool
  bogus : Bool
  havedata : Bool
  rcode : Nat
deriving DecidableEq

/-- `validationToDbEnum` (source lines 85-94): classify a `ub_result` into
one of the three strings used for the DB `secure` field. -/
def validationToDbEnum (result : UbResult) : String :=
  if result.secure then "secure"
  else if result.bogus then "bogus"
  else "insecure"

/-- Outcome of `RRTypeParser.fetch` (source lines 212-233): a returned
`ub_result`, the `None` return (permanent SERVFAIL, or the loop body never
running), or a raised `DnsError` carrying the nonzero resolver status. -/
inductive FetchOutcome where
  | ok (r : UbResult)
  | noResult
  | err (status : Int)
deriving DecidableEq

/-- The loop `for i in range(self.opts.attempts)` of `fetch`
(source lines 219-233).  The first argument maps the index of a resolver
call to the `(status, result)` pair that `self.resolver.resolve` returns
for that call; the `Nat` paired with the outcome counts resolver calls
made.  Every branch of the loop body leaves the function (`raise`,
`return result`, or `return None`), so the body never reaches a second
iteration; falling off the loop (zero iterations) is Python's implicit
`return None`. -/
def fetchGo (resolver : Nat → Int × UbResult) : Nat → Nat → FetchOutcome × Nat
  | 0, calls => (FetchOutcome.noResult, calls)
  | _ + 1, calls =>
    let sr := resolver calls
    if sr.1 ≠ 0 then (FetchOutcome.err sr.1, calls + 1)
    else if sr.2.rcode ≠ RCODE_SERVFAIL then (FetchOutcome.ok sr.2, calls + 1)
    else (FetchOutcome.noResult, calls + 1)

/-- `RRTypeParser.fetch` (source lines 212-233), started with
`attempts = self.opts.attempts` and zero calls made so far. -/
def fetch (attempts : Nat) (resolver : Nat → Int × UbResult) : FetchOutcome × Nat :=
  fetchGo resolver attempts 0

/-- Decoded view of one A/AAAA answer record as `AParser.fetchAndStore`
reads it (source lines 269-274): TTL and address string. -/
structure AnswerRR where
  ttl : Nat
  addr : String
deriving DecidableEq

/-- One row of the `aa_rr` table (source lines 266-276). -/
structure AaRow where
  secure : String
  domain : String
  ttl : Nat
  addr : String
deriving DecidableEq

/-- `AParser.fetchAndStore` (source lines 250-287) given the outcome of
`fetch` and the list of RRs of the scanned type in the answer section
(the wire decode is the external ldns boundary).  Returns the rows
inserted into `aa_rr` and the returned record count.  A raised `DnsError`
is caught (lines 255-257) and the count 0 returned; `None` from fetch and
`havedata` false also yield 0. -/
def aFetchAndStore (domain : String) (outcome : FetchOutcome) (rrs : List AnswerRR) :
    List AaRow × Nat :=
  match outcome with
  | FetchOutcome.err _ => ([], 0)
  | FetchOutcome.noResult => ([], 0)
  | FetchOutcome.ok r =>
    if r.havedata then
      (rrs.map fun rr => ⟨validationToDbEnum r, domain, rr.ttl, rr.addr⟩, rrs.length)
    else ([], 0)

/-- `DnskeyAlgo.algoMap` (source lines 303-312): algorithm id to name. -/
def algoMap : List (Nat × String) :=
  [(1, "RSA/MD5"),
   (5, "RSA/SHA-1"),
   (7, "RSASHA1-NSEC3-SHA1"),
   (8, "RSA/SHA-256"),
   (10, "RSA/SHA-512")]

/-- `DnskeyAlgo.rsaAlgoIds` (source line 314): `algoMap.keys()`. -/
def rsaAlgoIds : List Nat := algoMap.map Prod.fst

/-- `DNSKEYParser.maxDbExp` (source line 319): the largest exponent that
fits in the `dnskey_rr.rsa_exp` DB field. -/
def maxDbExp : Int := 9223372036854775807

/-- Value of `int(hexlify(bs), 16)` for a nonempty byte string `bs`:
the bytes read as a big-endian unsigned integer (source line 368). -/
def beInt (bs : List Nat) : Nat :=
  bs.foldl (fun acc b => acc * 256 + b) 0

/-- The `rsa_exp`, `rsa_mod`, `other_key` column values computed by the
DNSKEY record loop (source lines 353-376); `none` is SQL NULL. -/
structure KeyFields where
  rsa_exp : Option Int
  rsa_mod : Option (List Nat)
  other_key : Option (List Nat)
deriving DecidableEq

/-- Source lines 368-373, shared by both exponent-length forms: slice the
exponent bytes out of `pubkey` (Python slicing clamps to the string), read
them as a big-endian integer, and either store the sentinel `-1` with the
raw blob (exponent exceeds `maxDbExp`) or the exponent with the modulus
(the remaining bytes, leading zero bytes stripped by `lstrip`).
`int(hexlify(...), 16)` raises `ValueError` on an empty slice: `none`. -/
def decodeExpPart (pubkey : List Nat) (exp_hdr_len exp_len : Nat) : Option KeyFields :=
  let expBytes := (pubkey.drop exp_hdr_len).take exp_len
  if expBytes = [] then none
  else
    let exponent : Int := (beInt expBytes : Int)
    if exponent > maxDbExp then
      some ⟨some (-1), none, some pubkey⟩
    else
      some ⟨some exponent,
            some ((pubkey.drop (exp_hdr_len + exp_len)).dropWhile (fun b => b == 0)),
            none⟩

/-- The per-record key decomposition of `DNSKEYParser.fetchAndStore`
(source lines 353-376).  For an RSA algorithm id, `ord(pubkey[0])` raises
`IndexError` on an empty blob (`none`); a nonzero first byte is the 1-byte
exponent length (header length 1); a zero first byte reads `pubkey[1]` and
`pubkey[2]` (`IndexError` if missing) and computes
`ord(pubkey[1]) << 8 + ord(pubkey[2])`, which by Python operator precedence
is `pubkey[1] <<< (8 + pubkey[2])` (header length 3).  For a non-RSA
algorithm the whole blob is stored opaquely (lines 375-376). -/
def decodeKeyFields (algo : Nat) (pubkey : List Nat) : Option KeyFields :=
  if algo ∈ rsaAlgoIds then
    match pubkey.head? with
    | none => none
    | some exp_len0 =>
      if exp_len0 > 0 then
        decodeExpPart pubkey 1 exp_len0
      else
        match pubkey.get? 1, pubkey.get? 2 with
        | some b1, some b2 => decodeExpPart pubkey 3 (b1 <<< (8 + b2))
        | _, _ => none
  else
    some ⟨none, none, some pubkey⟩

/-- Modelled from the spec: identical to `decodeKeyFields` except that the
long-form exponent length follows the spec's (and RFC 3110's) formula
"the next two bytes (big-endian)", i.e. `(pubkey[1] <<< 8) + pubkey[2]`.
Present only to compare the source's long-form arithmetic against the
spec's stated formula. -/
def decodeKeyFieldsSpecLongForm (algo : Nat) (pubkey : List Nat) : Option KeyFields :=
  if algo ∈ rsaAlgoIds then
    match pubkey.head? with
    | none => none
    | some exp_len0 =>
      if exp_len0 > 0 then
        decodeExpPart pubkey 1 exp_len0
      else
        match pubkey.get? 1, pubkey.get? 2 with
        | some b1, some b2 => decodeExpPart pubkey 3 ((b1 <<< 8) + b2)
        | _, _ => none
  else
    some ⟨none, none, some pubkey⟩

/-- Decoded view of one DNSKEY answer record as the loop body reads it
(source lines 346-351): TTL, flags, protocol, algorithm, raw public key. -/
structure DnskeyRR where
  ttl : Nat
  flags : Nat
  proto : Nat
  algo : Nat
  pubkey : List Nat
deriving DecidableEq

/-- One row of the `dnskey_rr` table (source lines 339-342, 378). -/
structure DnskeyRow where
  secure : String
  domain : String
  ttl : Nat
  flags : Nat
  proto : Nat
  algo : Nat
  rsa_exp : Option Int
  rsa_mod : Option (List Nat)
  other_key : Option (List Nat)
deriving DecidableEq

/-- One iteration of the DNSKEY record loop (source lines 344-383): the
row inserted for `rr`, or `none` when the body raises (bad pubkey) and the
bare `except` logs and moves on. -/
def processDnskeyRR (secure domain : String) (rr : DnskeyRR) : Option DnskeyRow :=
  (decodeKeyFields rr.algo rr.pubkey).map fun kf =>
    ⟨secure, domain, rr.ttl, rr.flags, rr.proto, rr.algo,
     kf.rsa_exp, kf.rsa_mod, kf.other_key⟩

/-- `DNSKEYParser.fetchAndStore` (source lines 324-390) given the outcome
of `fetch` and the decoded list of DNSKEY RRs in the answer section.
Returns the rows inserted into `dnskey_rr` (each its own transaction;
failed iterations insert nothing) and the returned count, which is
`rrs.rr_count()` - the number of RRs of the target type, not the number
stored. -/
def dnskeyFetchAndStore (domain : String) (outcome : FetchOutcome) (rrs : List DnskeyRR) :
    List DnskeyRow × Nat :=
  match outcome with
  | FetchOutcome.err _ => ([], 0)
  | FetchOutcome.noResult => ([], 0)
  | FetchOutcome.ok r =>
    let secure := validationToDbEnum r
    if r.havedata then
      (rrs.filterMap (processDnskeyRR secure domain), rrs.length)
    else ([], 0)

/-- View of one resource record of a packet section as
`DnsMetadata.rrsigsStore` reads it (source lines 164-177): its RR type,
TTL, and - meaningful when the record is an RRSIG - the RRSIG RDATA
fields.  `sigTypeCovered` is the RRSIG "type covered" field, present in
the wire format but never read by the scraper.  The signer name is a
character string (`str(rr.rrsig_signame())`). -/
structure PacketRR where
  rrtype : Nat
  ttl : Nat
  sigAlgo : Nat
  sigLabels : Nat
  sigOrigTtl : Nat
  sigExpiration : Nat
  sigInception : Nat
  sigKeytag : Nat
  sigTypeCovered : Nat
  sigSigner : List Char
  sigSignature : List Nat
deriving DecidableEq

/-- One row of the `rrsig_rr` table (source lines 155-177). -/
structure RrsigRow where
  domain : String
  ttl : Nat
  rr_type : Nat
  algo : Nat
  labels : Nat
  orig_ttl : Nat
  sig_expiration : Nat
  sig_inception : Nat
  keytag : Nat
  signer : List Char
  signature : List Nat
deriving DecidableEq

/-- Python `s.rstrip(".")`: remove all trailing dot characters
(source line 173). -/
def rstripDots (s : List Char) : List Char :=
  (s.reverse.dropWhile (fun c => c == '.')).reverse

/-- `DnsMetadata.rrsigs` (source lines 144-147):
`pkt.rr_list_by_type(RR_TYPE_RRSIG, section)` - every record of the given
section whose RR type is RRSIG (an empty result becomes `[]`). -/
def rrsigs (sec : List PacketRR) : List PacketRR :=
  sec.filter (fun rr => rr.rrtype == RR_TYPE_RRSIG)

/-- The row built for one RRSIG by the loop body of
`DnsMetadata.rrsigsStore` (source lines 164-177): `rr_type` is
`self.rrType` - the type the parser scanned for, not the RRSIG's own
"type covered" field - and the signer name is stored rstripped of
trailing dots. -/
def rrsigRow (domain : String) (rrType : Nat) (rr : PacketRR) : RrsigRow :=
  ⟨domain, rr.ttl, rrType, rr.sigAlgo, rr.sigLabels, rr.sigOrigTtl,
   rr.sigExpiration, rr.sigInception, rr.sigKeytag,
   rstripDots rr.sigSigner, rr.sigSignature⟩

/-- `DnsMetadata.rrsigsStore` (source lines 149-183): one `rrsig_rr` row
per selected RRSIG, each committed separately. -/
def rrsigsStore (domain : String) (rrType : Nat) (sec : List PacketRR) : List RrsigRow :=
  (rrsigs sec).map (rrsigRow domain rrType)

/-- A resolver that reports internal status 1 on every call. -/
def failResolver : Nat → Int × UbResult := fun _ => (1, ⟨false, false, false, 0⟩)

/-- A resolver that reports status 0 with rcode SERVFAIL on every call. -/
def servfailResolver : Nat → Int × UbResult := fun _ => (0, ⟨false, false, false, 2⟩)

/-- C8: `validationToDbEnum` returns "secure" when the result's secure
flag is set, "bogus" when the bogus flag is set (and secure is not), and
"insecure" otherwise. -/
theorem c8_validation_enum (r : UbResult) :
    (r.secure = true → validationToDbEnum r = "secure") ∧
    (r.secure = false → r.bogus = true → validationToDbEnum r = "bogus") ∧
    (r.secure = false → r.bogus = false → validationToDbEnum r = "insecure") := by
  refine ⟨fun h => ?_, fun h1 h2 => ?_, fun h1 h2 => ?_⟩ <;>
    simp [validationToDbEnum, *]

theorem c8_validation_enum_witness :
    validationToDbEnum ⟨true, false, false, 0⟩ = "secure" ∧
    validationToDbEnum ⟨false, true, false, 0⟩ = "bogus" ∧
    validationToDbEnum ⟨false, false, false, 0⟩ = "insecure" :=
  ⟨(c8_validation_enum ⟨true, false, false, 0⟩).1 rfl,
   (c8_validation_enum ⟨false, true, false, 0⟩).2.1 rfl rfl,
   (c8_validation_enum ⟨false, false, false, 0⟩).2.2 rfl rfl⟩

/-- C10: with `attempts = 0` the retry loop body never runs, so `fetch`
returns the no-result sentinel after zero resolver calls, and both
`fetchAndStore` variants then return record count 0 (with no rows) for
every domain. -/
theorem c10_zero_attempts (resolver : Nat → Int × UbResult) (domain : String)
    (rrsA : List AnswerRR) (rrsK : List DnskeyRR) :
    fetch 0 resolver = (FetchOutcome.noResult, 0) ∧
    aFetchAndStore domain FetchOutcome.noResult rrsA = ([], 0) ∧
    dnskeyFetchAndStore domain FetchOutcome.noResult rrsK = ([], 0) :=
  ⟨rfl, rfl, rfl⟩

/-- C2: with `attempts = 3` and a resolver failing with internal status 1
on every call, `fetch` raises after exactly ONE resolver call - not 3 -
because every branch of the loop body leaves the function; the caught
error then makes `fetchAndStore` return record count 0.  This refutes the
claim's "retries the resolver call up to the configured attempts times"
and evaluates the code at the failing input. -/
theorem c2_single_call_on_error :
    fetch 3 failResolver = (FetchOutcome.err 1, 1) ∧
    aFetchAndStore "example.com" (FetchOutcome.err 1) [] = ([], 0) ∧
    dnskeyFetchAndStore "example.com" (FetchOutcome.err 1) [] = ([], 0) :=
  ⟨rfl, rfl, rfl⟩

/-- C3: when the resolver answers status 0 with rcode SERVFAIL, `fetch`
makes exactly one resolver call, returns the no-result sentinel rather
than raising, and `fetchAndStore` then returns record count 0. -/
theorem c3_servfail_single_call (attempts : Nat) (resolver : Nat → Int × UbResult)
    (hpos : 1 ≤ attempts)
    (hres : ∀ i, (resolver i).1 = 0 ∧ (resolver i).2.rcode = RCODE_SERVFAIL) :
    fetch attempts resolver = (FetchOutcome.noResult, 1) ∧
    (∀ (domain : String) (rrsA : List AnswerRR),
      aFetchAndStore domain FetchOutcome.noResult rrsA = ([], 0)) ∧
    (∀ (domain : String) (rrsK : List DnskeyRR),
      dnskeyFetchAndStore domain FetchOutcome.noResult rrsK = ([], 0)) := by
  refine ⟨?_, fun _ _ => rfl, fun _ _ => rfl⟩
  obtain ⟨k, rfl⟩ : ∃ k, attempts = k + 1 := ⟨attempts - 1, by omega⟩
  have h0 := hres 0
  simp [fetch, fetchGo, h0.1, h0.2]

theorem c3_servfail_single_call_witness :
    fetch 2 servfailResolver = (FetchOutcome.noResult, 1) ∧
    aFetchAndStore "example.com" FetchOutcome.noResult [] = ([], 0) :=
  have h := c3_servfail_single_call 2 servfailResolver (by decide)
    (fun _ => ⟨rfl, rfl⟩)
  ⟨h.1, h.2.1 "example.com" []⟩

/-- C6: for a DNSKEY whose algorithm id is not an RSA algorithm (not in
the keys {1, 5, 7, 8, 10} of `algoMap`), the computed row leaves both
exponent and modulus unset and stores the whole public-key blob
unmodified as the opaque `other_key`. -/
theorem c6_non_rsa_opaque (algo : Nat) (pubkey : List Nat)
    (h : algo ∉ rsaAlgoIds) :
    decodeKeyFields algo pubkey = some ⟨none, none, some pubkey⟩ := by
  simp [decodeKeyFields, h]

theorem c6_non_rsa_opaque_witness :
    (3 ∉ rsaAlgoIds) ∧
    decodeKeyFields 3 [1, 2, 3] = some ⟨none, none, some [1, 2, 3]⟩ :=
  ⟨by decide, c6_non_rsa_opaque 3 [1, 2, 3] (by decide)⟩

lemma take_length_append {α : Type} (l₁ l₂ : List α) :
    (l₁ ++ l₂).take l₁.length = l₁ := by
  induction l₁ with
  | nil => simp
  | cons a t ih => simp [ih]

lemma drop_length_append {α : Type} (l₁ l₂ : List α) :
    (l₁ ++ l₂).drop l₁.length = l₂ := by
  induction l₁ with
  | nil => simp
  | cons a t ih => simp [ih]

/-- C4: for every valid 1-byte-length-form DNSKEY RDATA blob
`[expBytes.length] ++ expBytes ++ modBytes` (first byte nonzero and a
byte value) with an RSA algorithm id and an exponent within the storage
ceiling, the codec recovers exactly the exponent (big-endian over
`expBytes`, which start at offset 1) and the modulus (`modBytes` with
leading zero bytes stripped), leaving the opaque key field unset. -/
theorem c4_short_form_roundtrip (algo : Nat) (expBytes modBytes : List Nat)
    (halgo : algo ∈ rsaAlgoIds)
    (hne : expBytes ≠ [])
    (_hbyte : expBytes.length < 256)
    (hmax : (beInt expBytes : Int) ≤ maxDbExp) :
    decodeKeyFields algo (expBytes.length :: (expBytes ++ modBytes)) =
      some ⟨some (beInt expBytes),
            some (modBytes.dropWhile (fun b => b == 0)),
            none⟩ := by
  have hlen : 0 < expBytes.length := List.length_pos.mpr hne
  have hslice : ((expBytes.length :: (expBytes ++ modBytes)).drop 1).take expBytes.length
      = expBytes := by
    simp [take_length_append]
  have hmod : (expBytes.length :: (expBytes ++ modBytes)).drop (1 + expBytes.length)
      = modBytes := by
    have : (1 + expBytes.length) = expBytes.length + 1 := by omega
    rw [this]
    simp [List.drop_succ_cons, drop_length_append]
  simp only [decodeKeyFields, if_pos halgo, List.head?_cons, if_pos hlen]
  simp only [decodeExpPart, hslice, hmod, if_neg hne, if_neg (not_lt.mpr hmax)]

theorem c4_short_form_roundtrip_witness :
    (5 ∈ rsaAlgoIds ∧ ([3] : List Nat) ≠ [] ∧ ([3] : List Nat).length < 256 ∧
      (beInt [3] : Int) ≤ maxDbExp) ∧
    decodeKeyFields 5 (([3] : List Nat).length :: ([3] ++ [0, 7])) =
      some ⟨some (beInt [3]),
            some (([0, 7] : List Nat).dropWhile (fun b => b == 0)),
            none⟩ :=
  ⟨⟨by decide, by decide, by decide, by decide⟩,
   c4_short_form_roundtrip 5 [3] [0, 7] (by decide) (by decide) (by decide) (by decide)⟩

lemma decodeExpPart_overflow (pubkey : List Nat) (hdr len : Nat)
    (h : maxDbExp < (beInt ((pubkey.drop hdr).take len) : Int)) :
    decodeExpPart pubkey hdr len = some ⟨some (-1), none, some pubkey⟩ := by
  have hne : (pubkey.drop hdr).take len ≠ [] := by
    intro he
    rw [he] at h
    norm_num [beInt, maxDbExp] at h
  simp only [decodeExpPart, if_neg hne]
  rw [if_pos h]

lemma decodeExpPart_not_both (pubkey : List Nat) (hdr len : Nat) (row : KeyFields)
    (h : decodeExpPart pubkey hdr len = some row) :
    row.rsa_mod = none ∨ row.other_key = none := by
  by_cases he : (pubkey.drop hdr).take len = []
  · simp [decodeExpPart, he] at h
  · by_cases hov : maxDbExp < (beInt ((pubkey.drop hdr).take len) : Int)
    · rw [decodeExpPart_overflow pubkey hdr len hov] at h
      cases h
      left
      rfl
    · simp only [decodeExpPart, if_neg he] at h
      rw [if_neg hov, Option.some.injEq] at h
      rw [← h]
      right
      rfl

/-- C5: for every RSA-algorithm DNSKEY blob whose decoded exponent (the
big-endian value of the exponent slice the code computes, in either
length form) exceeds the maximum signed 64-bit value `maxDbExp`, the
computed row stores the sentinel -1 exponent, the full raw blob
byte-for-byte in `other_key`, and leaves the modulus unset; moreover no
computed row ever has both the modulus and the opaque blob populated. -/
theorem c5_overflow_sentinel :
    (∀ (algo : Nat) (pubkey : List Nat) (b0 : Nat),
      algo ∈ rsaAlgoIds → pubkey.head? = some b0 → 0 < b0 →
      maxDbExp < (beInt ((pubkey.drop 1).take b0) : Int) →
      decodeKeyFields algo pubkey = some ⟨some (-1), none, some pubkey⟩) ∧
    (∀ (algo : Nat) (pubkey : List Nat) (b1 b2 : Nat),
      algo ∈ rsaAlgoIds → pubkey.head? = some 0 →
      pubkey.get? 1 = some b1 → pubkey.get? 2 = some b2 →
      maxDbExp < (beInt ((pubkey.drop 3).take (b1 <<< (8 + b2))) : Int) →
      decodeKeyFields algo pubkey = some ⟨some (-1), none, some pubkey⟩) ∧
    (∀ (algo : Nat) (pubkey : List Nat) (row : KeyFields),
      decodeKeyFields algo pubkey = some row →
      row.rsa_mod = none ∨ row.other_key = none) := by
  refine ⟨?_, ?_, ?_⟩
  · intro algo pubkey b0 halgo hhead hpos hov
    simp only [decodeKeyFields, if_pos halgo, hhead]
    rw [if_pos hpos]
    exact decodeExpPart_overflow pubkey 1 b0 hov
  · intro algo pubkey b1 b2 halgo hhead h1 h2 hov
    simp only [decodeKeyFields, if_pos halgo, hhead, h1, h2]
    rw [if_neg (lt_irrefl 0)]
    exact decodeExpPart_overflow pubkey 3 (b1 <<< (8 + b2)) hov
  · intro algo pubkey row h
    by_cases halgo : algo ∈ rsaAlgoIds
    · cases hhead : pubkey.head? with
      | none => simp [decodeKeyFields, halgo, hhead] at h
      | some b0 =>
        simp only [decodeKeyFields, if_pos halgo, hhead] at h
        by_cases hpos : b0 > 0
        · rw [if_pos hpos] at h
          exact decodeExpPart_not_both _ _ _ _ h
        · rw [if_neg hpos] at h
          cases h1 : pubkey.get? 1 with
          | none => rw [h1] at h; cases h2 : pubkey.get? 2 <;> simp [h2] at h
          | some b1 =>
            cases h2 : pubkey.get? 2 with
            | none => rw [h1, h2] at h; simp at h
            | some b2 =>
              rw [h1, h2] at h
              exact decodeExpPart_not_both _ _ _ _ h
    · simp only [decodeKeyFields, if_neg halgo, Option.some.injEq] at h
      rw [← h]
      left
      rfl

theorem c5_overflow_sentinel_witness :
    (5 ∈ rsaAlgoIds ∧
      maxDbExp < (beInt (((8 :: List.replicate 8 255).drop 1).take 8) : Int)) ∧
    decodeKeyFields 5 (8 :: List.replicate 8 255) =
      some ⟨some (-1), none, some (8 :: List.replicate 8 255)⟩ :=
  ⟨⟨by decide, by decide⟩,
   c5_overflow_sentinel.1 5 (8 :: List.replicate 8 255) 8 (by decide) rfl
     (by decide) (by decide)⟩

lemma length_filterMap_all_some {α β : Type} (f : α → Option β) :
    ∀ l : List α, (∀ x ∈ l, (f x).isSome = true) →
      (l.filterMap f).length = l.length := by
  intro l hl
  induction l with
  | nil => rfl
  | cons a t ih =>
    obtain ⟨b, hb⟩ := Option.isSome_iff_exists.mp (hl a (by simp))
    simp [List.filterMap_cons, hb, ih (fun x hx => hl x (by simp [hx]))]

/-- C7: when the answer holds N DNSKEY RRs of the target type of which
exactly one is malformed (its row computation fails, e.g. on an empty
exponent-length byte), `fetchAndStore` inserts exactly the N-1 rows of the
well-formed records - the per-record failure does not abort the loop -
and still returns N, the count of RRs of the target type, not the count
stored. -/
theorem c7_malformed_isolated (r : UbResult) (domain : String)
    (pre post : List DnskeyRR) (bad : DnskeyRR)
    (hd : r.havedata = true)
    (hbad : processDnskeyRR (validationToDbEnum r) domain bad = none)
    (hpre : ∀ rr ∈ pre, (processDnskeyRR (validationToDbEnum r) domain rr).isSome = true)
    (hpost : ∀ rr ∈ post, (processDnskeyRR (validationToDbEnum r) domain rr).isSome = true) :
    (dnskeyFetchAndStore domain (FetchOutcome.ok r) (pre ++ bad :: post)).1.length
      = (pre ++ bad :: post).length - 1 ∧
    (dnskeyFetchAndStore domain (FetchOutcome.ok r) (pre ++ bad :: post)).2
      = (pre ++ bad :: post).length := by
  have hrows :
      ((pre ++ bad :: post).filterMap
        (processDnskeyRR (validationToDbEnum r) domain)).length
      = pre.length + post.length := by
    simp [List.filterMap_append, List.filterMap_cons, hbad,
      length_filterMap_all_some _ pre hpre, length_filterMap_all_some _ post hpost]
  constructor
  · simp only [dnskeyFetchAndStore, hd, if_true, hrows, List.length_append,
      List.length_cons]
    omega
  · simp [dnskeyFetchAndStore, hd]

/-- A DNSKEY RR with a well-formed short-form RSA key. -/
def goodKeyRR1 : DnskeyRR := ⟨60, 256, 3, 5, [1, 3, 0, 7]⟩

/-- A DNSKEY RR whose public key blob is empty, so the exponent-length
byte read raises and the record is malformed. -/
def badKeyRR : DnskeyRR := ⟨60, 256, 3, 5, []⟩

/-- Another well-formed DNSKEY RR. -/
def goodKeyRR2 : DnskeyRR := ⟨60, 257, 3, 8, [1, 3, 9]⟩

/-- A secure resolution result carrying answer data. -/
def secureResult : UbResult := ⟨true, false, true, 0⟩

theorem c7_malformed_isolated_witness :
    (dnskeyFetchAndStore "example.com" (FetchOutcome.ok secureResult)
      [goodKeyRR1, badKeyRR, goodKeyRR2]).1.length = 3 - 1 ∧
    (dnskeyFetchAndStore "example.com" (FetchOutcome.ok secureResult)
      [goodKeyRR1, badKeyRR, goodKeyRR2]).2 = 3 :=
  c7_malformed_isolated secureResult "example.com" [goodKeyRR1] [goodKeyRR2]
    badKeyRR rfl (by decide) (by decide) (by decide)

/-- C9: every row `rrsigsStore` produces records the scanned RR type
passed to `DnsMetadata` in `rr_type` (never the RRSIG's own "type
covered" field, which no row field depends on); every record of the
section whose RR type is RRSIG contributes its row, whatever type it
covers; and the signer name is stored with trailing dots stripped. -/
theorem c9_rrsig_rows (domain : String) (rrType : Nat) (sec : List PacketRR) :
    (∀ row ∈ rrsigsStore domain rrType sec, row.rr_type = rrType) ∧
    (∀ rr ∈ sec, rr.rrtype = RR_TYPE_RRSIG →
      rrsigRow domain rrType rr ∈ rrsigsStore domain rrType sec) ∧
    (∀ rr : PacketRR, (rrsigRow domain rrType rr).signer = rstripDots rr.sigSigner ∧
      (rrsigRow domain rrType rr).rr_type = rrType) := by
  refine ⟨?_, ?_, fun rr => ⟨rfl, rfl⟩⟩
  · intro row hrow
    obtain ⟨rr, _, rfl⟩ := List.mem_map.mp hrow
    rfl
  · intro rr hmem htype
    exact List.mem_map_of_mem _ (List.mem_filter.mpr ⟨hmem, by simp [htype]⟩)

/-- An RRSIG record in the answer section covering type 48 (DNSKEY),
whose signer name carries a trailing dot. -/
def sigRec : PacketRR :=
  ⟨RR_TYPE_RRSIG, 300, 8, 2, 300, 1700000000, 1690000000, 4711, 48,
   ['n', 'i', 'c', '.'], [1, 2, 3]⟩

/-- An A record in the same section. -/
def aRec : PacketRR := ⟨1, 60, 0, 0, 0, 0, 0, 0, 0, [], []⟩

theorem c9_rrsig_rows_witness :
    rrsigRow "example.com" 1 sigRec ∈ rrsigsStore "example.com" 1 [aRec, sigRec] ∧
    (rrsigRow "example.com" 1 sigRec).rr_type = 1 ∧
    (rrsigRow "example.com" 1 sigRec).signer = ['n', 'i', 'c'] :=
  have h := c9_rrsig_rows "example.com" 1 [aRec, sigRec]
  ⟨(h.2.1 sigRec (by decide) rfl),
   (h.2.2 sigRec).2,
   by rw [(h.2.2 sigRec).1]; decide⟩

/-- A long-form DNSKEY RDATA blob: first byte 0, next two bytes 0x01 0x01,
then 257 zero bytes, the byte 5, 254 zero bytes and the byte 9.  Under the
spec's length formula the exponent is the 257 zero bytes (value 0) and the
modulus starts at the byte 5; under the source's arithmetic the exponent
slice is 512 bytes long and contains the byte 5. -/
def blobC1 : List Nat :=
  [0, 1, 1] ++ List.replicate 257 0 ++ [5] ++ List.replicate 254 0 ++ [9]

set_option maxRecDepth 40000 in
/-- C1: refuted on the code.  For the long form the source computes
`ord(pubkey[1]) << 8 + ord(pubkey[2])`, which Python parses as
`pubkey[1] << (8 + pubkey[2])`, not the claimed big-endian 16-bit value
`(pubkey[1] << 8) + pubkey[2]`.  On `blobC1` (second and third bytes both
1) the code uses exponent length 512 instead of 257: it reads an exponent
of value 5*256^254, overflows the DB field, and stores the sentinel row,
while the spec's formula yields exponent 0 with a modulus; the two
decoders disagree.  (The offset-3 part of the claim holds.) -/
theorem c1_long_form_precedence :
    decodeKeyFields 5 blobC1 = some ⟨some (-1), none, some blobC1⟩ ∧
    decodeKeyFieldsSpecLongForm 5 blobC1 =
      some ⟨some 0, some ([5] ++ List.replicate 254 0 ++ [9]), none⟩ ∧
    decodeKeyFields 5 blobC1 ≠ decodeKeyFieldsSpecLongForm 5 blobC1 := by
  refine ⟨by decide, by decide, by decide⟩
